import Mathlib

/-!
Verification development for the DomTree widget (src/lib/dom/domTree.js).

The widget state is embedded shallowly: the mounted TBODY is a list of rows,
each row carrying its repObject (a Member) and the two CSS classes toggleRow
manipulates (opened, spinning).  Provider calls that may throw are modelled
with Except; promise-valued child fetches are modelled by a promise id plus an
explicit resolution/rejection step mirroring the callbacks registered in
resolvePromise.  Domplate itself (core/domplate.js) is not part of the sources
under verification, so the row-insertion placement performed by
loop.insertRows / rowTag.insertRows and the firstChild lookup in append are
modelled from the specification; those definitions say so in their doc
comments.
-/

namespace DomTree

/-- JavaScript values visible to the tree widget.  Objects and arrays are
identified by a heap id, since JS equality on them is reference identity; an
array also carries its length, the only structural fact append reads from it. -/
inductive Value where
  | vNum (n : Int)
  | vStr (s : String)
  | vObj (id : Nat)
  | vArr (id : Nat) (len : Nat)
  deriving DecidableEq, Repr

/-- The JS typeof operator restricted to the values of the model. -/
def typeofV : Value → String
  | .vNum _ => "number"
  | .vStr _ => "string"
  | .vObj _ => "object"
  | .vArr _ _ => "object"

/-- A member object as built by DomTree.createMember: the row-value descriptor
attached to every rendered row (its repObject).  The source field `open` is a
Lean keyword, so it is called openFlag here; createMember always sets it to
the empty string and nothing in domTree.js ever mutates it. -/
structure Member where
  name : String
  type : String
  rowClass : String
  openFlag : String
  level : Nat
  hasChildren : Bool
  value : Value
  deriving DecidableEq, Repr

/-- DomTree.createMember, argument order as in the source
(type, name, value, level, hasChildren). -/
def createMember (type name : String) (value : Value) (level : Nat)
    (hasChildren : Bool) : Member :=
  { name := name, type := type, rowClass := "memberRow-" ++ type,
    openFlag := "", level := level, hasChildren := hasChildren, value := value }

/-- One mounted TR of the table body.  opened and spinning mirror the two CSS
classes toggleRow adds and removes; the level attribute the source reads with
getRowLevel is rowTag's `level: $member.level`, i.e. member.level. -/
structure Row where
  member : Member
  opened : Bool
  spinning : Bool
  deriving DecidableEq, Repr

/-- A freshly rendered row for a member.  Modelled from the spec: Domplate
rowTag rendering (core/domplate.js is not under src/).  The row class string
is "memberRow $member.open ..." and member.openFlag is always the empty
string, so a fresh row carries neither the opened nor the spinning class. -/
def mkRow (m : Member) : Row :=
  { member := m, opened := false, spinning := false }

/-- Result of provider.getChildren: either an immediate array of children or
a promise (isPromise in the source), identified here by a promise id. -/
inductive Children where
  | ready (cs : List Value)
  | promise (pid : Nat)
  deriving DecidableEq, Repr

/-- The external Member Provider.  Each call site in domTree.js can observe a
thrown exception from the provider, hence the Except results. -/
structure Provider where
  getChildren : Value → Except String Children
  hasChildren : Value → Except String Bool
  getLabel : Value → Except String String

/-- Immutable configuration of one DomTree instance: the bound provider, the
optional memberProvider override hook, and the debuggee object graph used by
the reflection fallback (for-in property enumeration). -/
structure Tree where
  provider : Option Provider
  memberProvider : Option (Value → Nat → Option (List Member))
  heap : Nat → List (String × Value)

/-- Mutable widget state: the mounted member rows in document order, the
fetchedChildren cache written by the resolution callback, whether this.element
exists (rendered), this.input.object, the resolution callbacks registered by
resolvePromise (promise id paired with the captured object), and the
Trace/TraceError diagnostic log. -/
structure TreeState where
  rows : List Row
  fetchedChildren : Option (List Value)
  rendered : Bool
  input : Option Value
  pendingCallbacks : List (Nat × Value)
  log : List String
  deriving DecidableEq, Repr

/-- Result of getMembers: a realized member list or a pending promise. -/
inductive MembersResult where
  | members (ms : List Member)
  | promise (pid : Nat)
  deriving DecidableEq, Repr

/-- The for-in property enumeration used by the reflection fallback
(getObjectProperties).  Numbers have no enumerable properties; a string
enumerates its character indices; objects and arrays enumerate the heap. -/
def propsOf (t : Tree) : Value → List (String × Value)
  | .vNum _ => []
  | .vStr s => s.toList.enum.map (fun p => (toString p.1, Value.vStr (String.mk [p.2])))
  | .vObj id => t.heap id
  | .vArr id _ => t.heap id

/-- DomTree.hasProperties: strings are explicitly property-less; otherwise a
for-in loop looks for at least one enumerable property. -/
def hasProperties (t : Tree) (obj : Value) : Bool :=
  if typeofV obj = "string" then false
  else !(propsOf t obj).isEmpty

/-- DomTree.getType: always the constant type tag "dom". -/
def getType (_object : Value) : String := "dom"

/-- One iteration of the reflection callback in getMembers: derive the
hasChildren flag from typeof and hasProperties, then createMember. -/
def reflectMember (t : Tree) (level : Nat) (pv : String × Value) : Member :=
  let hasCh := typeofV pv.2 = "object" && hasProperties t pv.2
  createMember (getType pv.2) pv.1 pv.2 level hasCh

/-- DomTree.resolvePromise for a not-yet-settled promise: attaches exactly one
resolution callback capturing the originating object and hands the promise
back to the caller.  The sync flag of the source is dead (its own comment
notes promises are always asynchronous now), so the synchronous-result branch
never fires and the callback body is modelled by promiseResolved below. -/
def resolvePromise (st : TreeState) (pid : Nat) (object : Value) : TreeState :=
  { st with pendingCallbacks := st.pendingCallbacks ++ [(pid, object)] }

/-- DomTree.fetchChildren: ask provider.getChildren inside try/catch; a thrown
exception is logged and yields the initial empty array; a promise is routed
through resolvePromise.  The provider-null case models the TypeError the
member access would throw, caught by the same catch block. -/
def fetchChildren (t : Tree) (st : TreeState) (object : Value) :
    TreeState × Children :=
  match t.provider with
  | none =>
    ({ st with log := st.log ++ ["domTree.fetchChildren; EXCEPTION TypeError"] },
      .ready [])
  | some p =>
    match p.getChildren object with
    | .error e =>
      ({ st with log := st.log ++ ["domTree.fetchChildren; EXCEPTION " ++ e] },
        .ready [])
    | .ok (.ready cs) => (st, .ready cs)
    | .ok (.promise pid) => (resolvePromise st pid object, .promise pid)

/-- The member-synthesis loop of getMembers in provider mode: for each raw
child query provider.hasChildren, getType and provider.getLabel, then
createMember.  The loop body is not wrapped in try/catch in the source, so a
provider exception aborts the loop and propagates (discarding the members
accumulated so far, exactly as the JS throw does). -/
def buildMembers (p : Provider) (level : Nat) :
    List Value → Except String (List Member)
  | [] => .ok []
  | child :: rest => do
    let hasCh ← p.hasChildren child
    let type := getType child
    let name ← p.getLabel child
    let m := createMember type name child level hasCh
    let ms ← buildMembers p level rest
    .ok (m :: ms)

/-- The default path of DomTree.getMembers (no memberProvider hit): in
provider mode consume this.fetchedChildren if set, else call fetchChildren;
null out fetchedChildren; bail out with the promise if the children are
pending; otherwise synthesize members.  Without a provider, fall back to
reflection over the value's own enumerable properties (each callback wrapped
in try/catch by getObjectProperties; nothing in the model throws there). -/
def getMembersDefault (t : Tree) (st : TreeState) (object : Value)
    (level : Nat) : TreeState × Except String MembersResult :=
  match t.provider with
  | some p =>
    let step : TreeState × Children :=
      match st.fetchedChildren with
      | some cs => (st, .ready cs)
      | none => fetchChildren t st object
    let st1 := { step.1 with fetchedChildren := none }
    match step.2 with
    | .promise pid => (st1, .ok (.promise pid))
    | .ready cs =>
      match buildMembers p level cs with
      | .error e => (st1, .error e)
      | .ok ms => (st1, .ok (.members ms))
  | none =>
    (st, .ok (.members ((propsOf t object).map (reflectMember t level))))

/-- DomTree.getMembers: a memberProvider result, when present and truthy, is
returned as-is; otherwise the default provider/reflection path runs.  The
missing level argument of the source defaults to 0 at the call sites. -/
def getMembers (t : Tree) (st : TreeState) (object : Value) (level : Nat) :
    TreeState × Except String MembersResult :=
  match t.memberProvider with
  | some mp =>
    match mp object level with
    | some ms => (st, .ok (.members ms))
    | none => getMembersDefault t st object level
  | none => getMembersDefault t st object level

/-- DomTree.toggleRow on the row at index i of the table body.  Second
component is an uncaught exception escaping to the caller (only the
member-synthesis loop inside getMembers can throw here).  Row-insertion
placement is modelled from the spec: loop.insertRows mounts one row per
member immediately below the parent row, in order (core/domplate.js is not
under src/). -/
def toggleRow (t : Tree) (st : TreeState) (i : Nat) (forceOpen : Bool) :
    TreeState × Option String :=
  match st.rows[i]? with
  | none => (st, none)
  | some row =>
    let level := row.member.level
    if forceOpen && row.opened then (st, none)
    else if row.opened then
      let front := st.rows.take i
      let rest := (st.rows.drop (i+1)).dropWhile (fun q => decide (level < q.member.level))
      ({ st with rows := front ++ ({ row with opened := false } :: rest) }, none)
    else if !row.member.hasChildren then (st, none)
    else
      let openedRow := { row with opened := true }
      let st1 := { st with rows := st.rows.set i openedRow }
      let fetched := getMembers t st1 row.member.value (level + 1)
      match fetched.2 with
      | .error e => (fetched.1, some e)
      | .ok (.members ms) =>
        if ms.isEmpty then (fetched.1, none)
        else
          ({ fetched.1 with
              rows := fetched.1.rows.take (i+1) ++ ms.map mkRow
                ++ fetched.1.rows.drop (i+1) }, none)
      | .ok (.promise _) =>
        ({ fetched.1 with rows := fetched.1.rows.set i { openedRow with spinning := true } },
          none)

/-- Index of the first mounted row whose member.value equals the object
(DomTree.getRow iterates this.element.querySelectorAll in document order and
bails out when the widget has not rendered yet). -/
def getRowIdx (st : TreeState) (object : Value) : Option Nat :=
  if st.rendered then st.rows.findIdx? (fun r => decide (r.member.value = object))
  else none

/-- DomTree.getRow as the row itself. -/
def getRow (st : TreeState) (object : Value) : Option Row :=
  (getRowIdx st object).bind (fun i => st.rows[i]?)

/-- Index of the first mounted row whose repObject is the given member
(DomTree.getMemberRow). -/
def getMemberRowIdx (st : TreeState) (member : Member) : Option Nat :=
  if st.rendered then st.rows.findIdx? (fun r => decide (r.member = member))
  else none

/-- DomTree.expandMember: silently a no-op when no row carries the member. -/
def expandMember (t : Tree) (st : TreeState) (member : Member) :
    TreeState × Option String :=
  match getMemberRowIdx st member with
  | some i => toggleRow t st i true
  | none => (st, none)

/-- DomTree.expandObject: a lookup miss is logged via TraceError and the call
returns without toggling anything. -/
def expandObject (t : Tree) (st : TreeState) (object : Value) :
    TreeState × Option String :=
  match getRowIdx st object with
  | none =>
    ({ st with log := st.log ++ ["domTree.expandObject; ERROR no such object"] },
      none)
  | some i => toggleRow t st i true

/-- DomTree.collapseObject: the source reads row.classList without a null
check, so a lookup miss throws a TypeError to the caller; a found row is
toggled only when it carries the opened class. -/
def collapseObject (t : Tree) (st : TreeState) (object : Value) :
    TreeState × Option String :=
  match getRowIdx st object with
  | none => (st, some "TypeError: row is null")
  | some i =>
    match st.rows[i]? with
    | none => (st, none)
    | some row => if row.opened then toggleRow t st i false else (st, none)

/-- DomTree.doUpdateObject.  The root branch remount is modelled from the
spec: UpdateObject on the bound root regenerates the full depth-0 member list
and remounts it (the exact placement done by loop.insertRows against
this.element.firstChild lives in core/domplate.js, which is not under src/);
a still-pending member fetch mounts nothing.  The non-root branch mutates the
row's member, collapses it if it was expanded, swaps in a freshly rendered
row at the same position (insert after the old row, then remove the old row),
and re-expands or collapses according to the refreshed hasChildren flag.
Provider faults surface as the exception in the second component, which
updateObject catches. -/
def doUpdateObject (t : Tree) (st : TreeState) (object : Value) :
    TreeState × Option String :=
  let rowIdx := getRowIdx st object
  if st.input = some object then
    let fetched := getMembers t st object 0
    match fetched.2 with
    | .error e => (fetched.1, some e)
    | .ok (.members ms) => ({ fetched.1 with rows := ms.map mkRow }, none)
    | .ok (.promise _) => (fetched.1, none)
  else
    match rowIdx with
    | none =>
      ({ st with log := st.log ++ ["domTree.updateObject; This object can not be updated"] },
        none)
    | some i =>
      match st.rows[i]? with
      | none => (st, none)
      | some row =>
        match t.provider with
        | none => (st, some "TypeError: provider is null")
        | some p =>
          match p.hasChildren object with
          | .error e => (st, some e)
          | .ok hc =>
            let member := { row.member with hasChildren := hc }
            let st1 := { st with rows := st.rows.set i { row with member := member } }
            let expanded := row.opened
            let st2 := if expanded then (toggleRow t st1 i false).1 else st1
            let st3 := { st2 with rows := st2.rows.set i (mkRow member) }
            if expanded then
              if member.hasChildren then expandObject t st3 object
              else collapseObject t st3 object
            else (st3, none)

/-- DomTree.updateObject: run doUpdateObject inside try/catch, logging any
exception via TraceError. -/
def updateObject (t : Tree) (st : TreeState) (object : Value) : TreeState :=
  let r := doUpdateObject t st object
  match r.2 with
  | none => r.1
  | some e => { r.1 with log := r.1.log ++ ["domTree.updateObject; EXCEPTION " ++ e] }

/-- Body of the resolution callback registered in resolvePromise: store the
resolved children in this.fetchedChildren, then re-enter through
updateObject on the captured object. -/
def promiseResolved (t : Tree) (st : TreeState) (object : Value)
    (value : List Value) : TreeState :=
  updateObject t { st with fetchedChildren := some value } object

/-- Body of the rejection callback registered in resolvePromise: the failure
is reported via TraceError and nothing else happens. -/
def promiseRejected (st : TreeState) (err : String) : TreeState :=
  { st with log := st.log ++ ["domTree.onResolvePromise; ERROR " ++ err] }

/-- DomTree.memberIterator: the Domplate FOR loop needs an array, so a
pending promise is replaced by the empty array; the rows appear later via the
resolution callback. -/
def memberIterator (t : Tree) (st : TreeState) (object : Value) :
    TreeState × Except String (List Member) :=
  let fetched := getMembers t st object 0
  match fetched.2 with
  | .error e => (fetched.1, .error e)
  | .ok (.members ms) => (fetched.1, .ok ms)
  | .ok (.promise _) => (fetched.1, .ok [])

/-- The guard of the auto-expand in append: Array.isArray(input) and
input.length greater than 2. -/
def arrayLongerThanTwo : Value → Bool
  | .vArr _ len => decide (2 < len)
  | _ => false

/-- DomTree.append: bind input, render the table (one row per member produced
by memberIterator — modelled from the spec, since the Domplate tag expansion
lives in core/domplate.js, not under src/), then, unless noExpand is set or
the input is an array with more than two elements, toggle the first member
row when one exists.  An exception escaping the member synthesis propagates
in the second component. -/
def append (t : Tree) (st : TreeState) (input : Value) (noExpand : Bool) :
    TreeState × Option String :=
  let st0 := { st with input := some input, rendered := true }
  let iter := memberIterator t st0 input
  match iter.2 with
  | .error e => (iter.1, some e)
  | .ok ms =>
    let st2 := { iter.1 with rows := ms.map mkRow }
    if noExpand then (st2, none)
    else
      let value := arrayLongerThanTwo input
      match st2.rows[0]? with
      | none => (st2, none)
      | some _ => if value then (st2, none) else toggleRow t st2 0 false

/-- DomTree.replace: clear the container node, then append.  Clearing is
subsumed by append overwriting the mounted row list. -/
def replace (t : Tree) (st : TreeState) (input : Value) (noExpand : Bool) :
    TreeState × Option String :=
  append t st input noExpand

/-- DomTree.isEmpty: true before rendering or when no member row is mounted. -/
def isEmpty (st : TreeState) : Bool :=
  if st.rendered then st.rows.isEmpty else true

/-! Concrete fixtures used by witnesses and counterexamples. -/

/-- A provider all of whose values are child-less leaves. -/
def leafProvider : Provider :=
  { getChildren := fun _ => .ok (.ready []),
    hasChildren := fun _ => .ok false,
    getLabel := fun _ => .ok "x" }

def sampleMemberA : Member := createMember "dom" "a" (.vObj 2) 0 true
def sampleMemberB : Member := createMember "dom" "b" (.vNum 1) 1 false
def sampleMemberC : Member := createMember "dom" "c" (.vNum 2) 2 false
def sampleMemberD : Member := createMember "dom" "d" (.vNum 3) 0 false

def sampleTree : Tree :=
  { provider := some leafProvider, memberProvider := none, heap := fun _ => [] }

/-- A rendered widget with an empty table body, bound to root vObj 9. -/
def baseState : TreeState :=
  { rows := [], fetchedChildren := none, rendered := true, input := some (.vObj 9),
    pendingCallbacks := [], log := [] }

/-- Four rows: an expanded parent at level 0, two descendants at levels 1 and
2, and a sibling back at level 0. -/
def expandedRowA : Row := { member := sampleMemberA, opened := true, spinning := false }

def collapseState : TreeState :=
  { baseState with
    rows := [expandedRowA, mkRow sampleMemberB, mkRow sampleMemberC, mkRow sampleMemberD] }

/-- A row in the pending state: opened and spinning. -/
def pendingRowA : Row := { member := sampleMemberA, opened := true, spinning := true }

def pendingState : TreeState := { baseState with rows := [pendingRowA] }

/-- A collapsed leaf row fixture. -/
def leafRowD : Row := mkRow sampleMemberD

def leafState : TreeState := { baseState with rows := [leafRowD] }

/-! Theorems for the claims. -/

/-- C2: collapsing an expanded row removes exactly the contiguous block of
rows immediately after it whose level is strictly greater than the row's
level, stopping at the first subsequent row with level less than or equal to
it or at the end of the list; the preceding rows, the boundary row and
everything after it are untouched, and the toggled row merely loses its
opened class. -/
theorem c2_collapse_removes_level_block (t : Tree) (st : TreeState) (i : Nat)
    (r : Row) (hget : st.rows[i]? = some r) (hopen : r.opened = true) :
    toggleRow t st i false =
      ({ st with rows := st.rows.take i ++ ({ r with opened := false } ::
          (st.rows.drop (i+1)).dropWhile
            (fun q => decide (r.member.level < q.member.level))) }, none) := by
  simp [toggleRow, hget, hopen]

/-- C2 witness: collapsing the expanded level-0 row of the four-row fixture
deletes the two deeper rows and keeps the level-0 sibling. -/
theorem c2_collapse_removes_level_block_witness :
    collapseState.rows[0]? = some expandedRowA ∧ expandedRowA.opened = true ∧
    toggleRow sampleTree collapseState 0 false =
      ({ collapseState with rows := collapseState.rows.take 0 ++
          ({ expandedRowA with opened := false } ::
            (collapseState.rows.drop 1).dropWhile
              (fun q => decide (expandedRowA.member.level < q.member.level))) }, none) :=
  ⟨by decide, by decide,
    c2_collapse_removes_level_block sampleTree collapseState 0 expandedRowA
      (by decide) (by decide)⟩

/-- C8: toggleRow with forceOpen on a row that already carries the opened
class (which both the expanded and the pending state do) returns before
touching anything: the state, and in particular the row list and the set of
registered fetch callbacks, is unchanged and no exception escapes. -/
theorem c8_force_open_noop (t : Tree) (st : TreeState) (i : Nat) (r : Row)
    (hget : st.rows[i]? = some r) (hopen : r.opened = true) :
    toggleRow t st i true = (st, none) := by
  simp [toggleRow, hget, hopen]

/-- C8 witness: a forced re-expand of a pending (opened and spinning) row is
a no-op. -/
theorem c8_force_open_noop_witness :
    pendingState.rows[0]? = some pendingRowA ∧ pendingRowA.opened = true ∧
    toggleRow sampleTree pendingState 0 true = (pendingState, none) :=
  ⟨by decide, by decide,
    c8_force_open_noop sampleTree pendingState 0 pendingRowA (by decide) (by decide)⟩

/-- C9: toggleRow on a collapsed row whose member has hasChildren set to
false returns before asking any provider for children: for every tree
configuration (hence every provider) the state is unchanged, so no child row
is mounted and the row stays collapsed. -/
theorem c9_no_children_noop (t : Tree) (st : TreeState) (i : Nat) (r : Row)
    (forceOpen : Bool) (hget : st.rows[i]? = some r) (hopen : r.opened = false)
    (hleaf : r.member.hasChildren = false) :
    toggleRow t st i forceOpen = (st, none) := by
  simp [toggleRow, hget, hopen, hleaf]

/-- C9 witness: toggling the collapsed leaf row changes nothing. -/
theorem c9_no_children_noop_witness :
    leafState.rows[0]? = some leafRowD ∧ leafRowD.opened = false ∧
    leafRowD.member.hasChildren = false ∧
    toggleRow sampleTree leafState 0 false = (leafState, none) :=
  ⟨by decide, by decide, by decide,
    c9_no_children_noop sampleTree leafState 0 leafRowD false
      (by decide) (by decide) (by decide)⟩

/-- C4: the widget evaluated at the failing input.  With no mounted row for
the argument, expandMember is a silent no-op and expandObject is a no-op that
only writes to the diagnostic log, as the claim states; but collapseObject
reads row.classList without a null check, so the lookup miss throws a
TypeError to the caller instead of being a no-op. -/
theorem c4_collapse_object_missing_row_throws :
    expandMember sampleTree baseState sampleMemberA = (baseState, none)
    ∧ (expandObject sampleTree baseState (.vNum 5)).1.rows = baseState.rows
    ∧ (expandObject sampleTree baseState (.vNum 5)).2 = none
    ∧ (expandObject sampleTree baseState (.vNum 5)).1.log
        = baseState.log ++ ["domTree.expandObject; ERROR no such object"]
    ∧ (collapseObject sampleTree baseState (.vNum 5)).2 = some "TypeError: row is null" := by
  refine ⟨by decide, by decide, by decide, by decide, by decide⟩

/-! Fixtures involving asynchronous child fetches. -/

/-- A provider that answers the fetch for vObj 0 with a promise. -/
def pendingFetchProvider : Provider :=
  { getChildren := fun v => if v = .vObj 0 then .ok (.promise 5) else .ok (.ready []),
    hasChildren := fun _ => .ok true,
    getLabel := fun _ => .ok "x" }

def pendingFetchTree : Tree :=
  { provider := some pendingFetchProvider, memberProvider := none, heap := fun _ => [] }

def asyncRowMember : Member := createMember "dom" "a" (.vObj 0) 0 true

def pendingStartState : TreeState := { baseState with rows := [mkRow asyncRowMember] }

/-- The widget right after toggleRow has issued the asynchronous fetch. -/
def pendingIssuedState : TreeState := (toggleRow pendingFetchTree pendingStartState 0 false).1

/-- C3 counterexample: toggleRow on the collapsed row issues an asynchronous
fetch; when the promise is rejected the rejection handler only logs, so the
originating row still carries the opened and spinning classes — it neither
ends in nor is returned to the collapsed state. -/
theorem c3_rejection_leaves_pending_counterexample :
    ((promiseRejected pendingIssuedState "boom").rows.map fun r => (r.opened, r.spinning))
      = [(true, true)] := by
  decide

/-- C3 (amended): when an asynchronous child fetch is rejected, the failure
is reported via the diagnostic channel and no child rows are mounted, but the
originating row remains in the pending state (opened and spinning classes)
rather than being left in or returned to the collapsed state. -/
theorem c3_rejection_logged_no_rows_amended (t : Tree) (p : Provider)
    (st : TreeState) (i : Nat) (r : Row) (pid : Nat) (err : String)
    (hmp : t.memberProvider = none) (hp : t.provider = some p)
    (hget : st.rows[i]? = some r) (hopen : r.opened = false)
    (hhc : r.member.hasChildren = true) (hfc : st.fetchedChildren = none)
    (hpr : p.getChildren r.member.value = .ok (.promise pid)) :
    (promiseRejected (toggleRow t st i false).1 err).rows
        = st.rows.set i { r with opened := true, spinning := true }
    ∧ (promiseRejected (toggleRow t st i false).1 err).log
        = st.log ++ ["domTree.onResolvePromise; ERROR " ++ err]
    ∧ (promiseRejected (toggleRow t st i false).1 err).pendingCallbacks
        = st.pendingCallbacks ++ [(pid, r.member.value)] := by
  simp [toggleRow, getMembers, getMembersDefault, fetchChildren, resolvePromise,
    promiseRejected, hmp, hp, hget, hopen, hhc, hfc, hpr, List.set_set]

/-- C3 witness: the amended statement evaluated on the pending-fetch fixture. -/
theorem c3_rejection_logged_no_rows_witness :
    (promiseRejected (toggleRow pendingFetchTree pendingStartState 0 false).1 "boom").rows
        = pendingStartState.rows.set 0 { mkRow asyncRowMember with opened := true, spinning := true }
    ∧ (promiseRejected (toggleRow pendingFetchTree pendingStartState 0 false).1 "boom").log
        = pendingStartState.log ++ ["domTree.onResolvePromise; ERROR " ++ "boom"]
    ∧ (promiseRejected (toggleRow pendingFetchTree pendingStartState 0 false).1 "boom").pendingCallbacks
        = pendingStartState.pendingCallbacks ++ [(5, (mkRow asyncRowMember).member.value)] :=
  c3_rejection_logged_no_rows_amended pendingFetchTree pendingFetchProvider
    pendingStartState 0 (mkRow asyncRowMember) 5 "boom"
    rfl rfl (by decide) rfl rfl rfl rfl

/-- A provider whose getLabel always throws. -/
def labelThrowProvider : Provider :=
  { getChildren := fun v => if v = .vObj 0 then .ok (.ready [.vNum 1]) else .ok (.ready []),
    hasChildren := fun _ => .ok true,
    getLabel := fun _ => .error "boom" }

def labelThrowTree : Tree :=
  { provider := some labelThrowProvider, memberProvider := none, heap := fun _ => [] }

def labelThrowState : TreeState := { baseState with rows := [mkRow asyncRowMember] }

/-- C7 counterexample: the member-synthesis loop of getMembers is not wrapped
in try/catch, so a provider whose getLabel throws during child retrieval
makes toggleRow propagate the exception to its caller — the fault is neither
caught at the call site nor treated as an empty child list. -/
theorem c7_label_fault_propagates_counterexample :
    (toggleRow labelThrowTree labelThrowState 0 false).2 = some "boom" := by
  decide

/-- C7 (amended): a provider fault thrown by getChildren is caught inside
fetchChildren, logged, and treated as an empty child list: the expand
completes without propagating the exception, the row gains the opened class
and no child row is mounted.  Faults thrown by getLabel or hasChildren during
member synthesis in provider mode, by contrast, propagate to the caller (and
the type lookup, being the constant "dom", cannot fault). -/
theorem c7_children_fault_caught_amended (t : Tree) (p : Provider)
    (st : TreeState) (i : Nat) (r : Row) (e : String) (forceOpen : Bool)
    (hmp : t.memberProvider = none) (hp : t.provider = some p)
    (hget : st.rows[i]? = some r) (hopen : r.opened = false)
    (hhc : r.member.hasChildren = true) (hfc : st.fetchedChildren = none)
    (hthrow : p.getChildren r.member.value = .error e) :
    toggleRow t st i forceOpen =
      ({ st with
          rows := st.rows.set i { r with opened := true }
          fetchedChildren := none
          log := st.log ++ ["domTree.fetchChildren; EXCEPTION " ++ e] }, none) := by
  simp [toggleRow, getMembers, getMembersDefault, fetchChildren, buildMembers,
    hmp, hp, hget, hopen, hhc, hfc, hthrow]

/-- A provider whose getChildren always throws. -/
def childThrowProvider : Provider :=
  { getChildren := fun _ => .error "down",
    hasChildren := fun _ => .ok true,
    getLabel := fun _ => .ok "x" }

def childThrowTree : Tree :=
  { provider := some childThrowProvider, memberProvider := none, heap := fun _ => [] }

/-- C7 witness: expanding against the throwing getChildren provider opens the
row, mounts nothing, logs, and throws nothing. -/
theorem c7_children_fault_caught_witness :
    toggleRow childThrowTree labelThrowState 0 false =
      ({ labelThrowState with
          rows := labelThrowState.rows.set 0 { mkRow asyncRowMember with opened := true }
          fetchedChildren := none
          log := labelThrowState.log ++ ["domTree.fetchChildren; EXCEPTION " ++ "down"] }, none) :=
  c7_children_fault_caught_amended childThrowTree childThrowProvider
    labelThrowState 0 (mkRow asyncRowMember) "down" false
    rfl rfl (by decide) rfl rfl rfl rfl

/-- A provider giving the root two leaf children, synchronously. -/
def rootUpdateProvider : Provider :=
  { getChildren := fun v => if v = .vObj 0 then .ok (.ready [.vNum 1, .vNum 2]) else .ok (.ready []),
    hasChildren := fun _ => .ok false,
    getLabel := fun _ => .ok "x" }

def rootUpdateTree : Tree :=
  { provider := some rootUpdateProvider, memberProvider := none, heap := fun _ => [] }

/-- A widget bound to root vObj 0 with three stale rows mounted. -/
def rootUpdateState : TreeState :=
  { rows := [mkRow sampleMemberB, mkRow sampleMemberC, mkRow sampleMemberD],
    fetchedChildren := none, rendered := true, input := some (.vObj 0),
    pendingCallbacks := [], log := [] }

def rootUpdateMembers : List Member :=
  [createMember "dom" "x" (.vNum 1) 0 false, createMember "dom" "x" (.vNum 2) 0 false]

/-- C5: updateObject on the bound root re-derives the depth-0 member list via
getMembers and remounts it, so the mounted row count equals the count of the
newly derived members whatever was mounted before.  The placement of the
remount is modelled from the spec (loop.insertRows against
this.element.firstChild lives in core/domplate.js, which is not under src/). -/
theorem c5_update_root_remounts (t : Tree) (st : TreeState) (root : Value)
    (ms : List Member) (st1 : TreeState)
    (hroot : st.input = some root)
    (hms : getMembers t st root 0 = (st1, .ok (.members ms))) :
    updateObject t st root = { st1 with rows := ms.map mkRow }
    ∧ (updateObject t st root).rows.length = ms.length := by
  refine ⟨?_, ?_⟩ <;> simp [updateObject, doUpdateObject, hroot, hms]

/-- C5 witness: prior row count three, new member count two, final row count
two. -/
theorem c5_update_root_remounts_witness :
    updateObject rootUpdateTree rootUpdateState (.vObj 0)
        = { rootUpdateState with rows := rootUpdateMembers.map mkRow }
    ∧ (updateObject rootUpdateTree rootUpdateState (.vObj 0)).rows.length
        = rootUpdateMembers.length :=
  c5_update_root_remounts rootUpdateTree rootUpdateState (.vObj 0)
    rootUpdateMembers rootUpdateState rfl rfl

/-- A provider answering every fetch with a promise. -/
def allPendingProvider : Provider :=
  { getChildren := fun _ => .ok (.promise 3),
    hasChildren := fun _ => .ok true,
    getLabel := fun _ => .ok "x" }

def allPendingTree : Tree :=
  { provider := some allPendingProvider, memberProvider := none, heap := fun _ => [] }

/-- An unrendered widget. -/
def freshState : TreeState :=
  { rows := [], fetchedChildren := none, rendered := false, input := none,
    pendingCallbacks := [], log := [] }

/-- C10: when the child fetch for the root input is still pending,
memberIterator returns the empty array instead of the promise, so the initial
render mounts zero member rows, auto-expands nothing, and throws nothing. -/
theorem c10_pending_members_empty_render (t : Tree) (st : TreeState)
    (input : Value) (noExpand : Bool) (pid : Nat) (st1 : TreeState)
    (hms : getMembers t { st with input := some input, rendered := true } input 0
        = (st1, .ok (.promise pid))) :
    memberIterator t { st with input := some input, rendered := true } input
        = (st1, .ok [])
    ∧ append t st input noExpand = ({ st1 with rows := [] }, none) := by
  cases noExpand <;>
    simp [memberIterator, append, hms]

/-- C10 witness: rendering against the always-pending provider mounts zero
rows and registers the fetch callback without throwing. -/
theorem c10_pending_members_empty_render_witness :
    memberIterator allPendingTree
        { freshState with input := some (.vObj 0), rendered := true } (.vObj 0)
      = ({ freshState with
            input := some (.vObj 0)
            rendered := true
            pendingCallbacks := [(3, .vObj 0)] }, .ok [])
    ∧ append allPendingTree freshState (.vObj 0) false
      = ({ freshState with
            input := some (.vObj 0)
            rendered := true
            pendingCallbacks := [(3, .vObj 0)]
            rows := [] }, none) :=
  c10_pending_members_empty_render allPendingTree freshState (.vObj 0) false 3
    { freshState with
      input := some (.vObj 0)
      rendered := true
      pendingCallbacks := [(3, .vObj 0)] } rfl

/-- A provider giving the root exactly one leaf child. -/
def leafFirstProvider : Provider :=
  { getChildren := fun v => if v = .vObj 0 then .ok (.ready [.vNum 1]) else .ok (.ready []),
    hasChildren := fun _ => .ok false,
    getLabel := fun _ => .ok "x" }

def leafFirstTree : Tree :=
  { provider := some leafFirstProvider, memberProvider := none, heap := fun _ => [] }

def leafFirstMembers : List Member := [createMember "dom" "x" (.vNum 1) 0 false]

/-- The widget state right after append has bound the root input vObj 0. -/
def leafFirstBound : TreeState :=
  { freshState with input := some (.vObj 0), rendered := true }

/-- C6 counterexample: rendering a non-array root whose first depth-0 member
has no children, with skipAutoExpand unset, leaves the single mounted row
collapsed — no row is auto-expanded even though neither exception of the
claim applies, because the auto-expand goes through toggleRow, which refuses
rows without children. -/
theorem c6_autoexpand_leaf_counterexample :
    ((append leafFirstTree freshState (.vObj 0) false).1.rows.map fun r => r.opened) = [false]
    ∧ (append leafFirstTree freshState (.vObj 0) false).2 = none := by
  refine ⟨by decide, by decide⟩

/-- C6 (amended): append mounts one row per depth-0 member and then applies
toggleRow to the first mounted row — actually expanding it only when it is
marked as having children — except when noExpand is set or the root input is
an array with more than two elements, in which case no row is toggled and
every mounted row stays collapsed. -/
theorem c6_render_autoexpand_amended (t : Tree) (st : TreeState) (input : Value)
    (ms : List Member) (st1 : TreeState)
    (hms : memberIterator t { st with input := some input, rendered := true } input
        = (st1, .ok ms)) :
    append t st input true = ({ st1 with rows := ms.map mkRow }, none)
    ∧ (arrayLongerThanTwo input = true →
        append t st input false = ({ st1 with rows := ms.map mkRow }, none))
    ∧ (∀ r ∈ ms.map mkRow, r.opened = false)
    ∧ (arrayLongerThanTwo input = false → ms ≠ [] →
        append t st input false = toggleRow t { st1 with rows := ms.map mkRow } 0 false)
    ∧ (∀ m0 rest, ms = m0 :: rest → m0.hasChildren = false →
        arrayLongerThanTwo input = false →
        append t st input false = ({ st1 with rows := ms.map mkRow }, none)) := by
  refine ⟨?_, ?_, ?_, ?_, ?_⟩
  · simp [append, hms]
  · intro harr
    cases hr : (ms.map mkRow)[0]? <;> simp [append, hms, harr, hr]
  · intro r hr
    simp only [List.mem_map] at hr
    obtain ⟨m, _, hm⟩ := hr
    simp [← hm, mkRow]
  · intro harr hne
    cases ms with
    | nil => exact absurd rfl hne
    | cons m0 rest => simp [append, hms, harr]
  · intro m0 rest hcons hhc harr
    subst hcons
    simp [append, hms, harr, toggleRow, mkRow, hhc]

/-- C6 witness: the amended statement applied to the one-leaf-member root:
with noExpand set the row list is mounted untoggled, and without noExpand the
leaf first row is still left collapsed. -/
theorem c6_render_autoexpand_witness :
    append leafFirstTree freshState (.vObj 0) true
        = ({ leafFirstBound with rows := leafFirstMembers.map mkRow }, none)
    ∧ append leafFirstTree freshState (.vObj 0) false
        = ({ leafFirstBound with rows := leafFirstMembers.map mkRow }, none) := by
  have h := c6_render_autoexpand_amended leafFirstTree freshState (.vObj 0)
    leafFirstMembers leafFirstBound rfl
  exact ⟨h.1, h.2.2.2.2 (createMember "dom" "x" (.vNum 1) 0 false) [] rfl rfl rfl⟩

/-- Setting an index to an element with the same image leaves the mapped list
unchanged. -/
theorem map_set_congr {α β : Type} (f : α → β) (l : List α) (i : Nat) (a b : α)
    (hget : l[i]? = some b) (hf : f a = f b) : (l.set i a).map f = l.map f := by
  induction l generalizing i with
  | nil => simp at hget
  | cons x xs ih =>
    cases i with
    | zero =>
      simp only [List.getElem?_cons_zero, Option.some.injEq] at hget
      subst hget
      simp [hf]
    | succ n =>
      simp only [List.getElem?_cons_succ] at hget
      simp [ih n hget]

/-- C1 (amended): if a child fetch is pending for a row and, before it
resolves, that row is collapsed (it keeps its mount but loses the opened
class) or removed outright (by collapsing an ancestor), then the resolution
callback mounts no rows: the mounted rows carry exactly the same member
values as before, position by position.  However, the resolved children are
not discarded: they stay behind in the fetchedChildren cache, from which the
next member fetch — for any row — will consume them. -/
theorem c1_resolution_after_collapse_amended (t : Tree) (st : TreeState)
    (o : Value) (cs : List Value) (pid : Nat)
    (_hpend : (pid, o) ∈ st.pendingCallbacks)
    (hroot : st.input ≠ some o)
    (hcollapsed : Option.all (fun r => !r.opened) (getRow st o) = true) :
    ((promiseResolved t st o cs).rows.map fun r => r.member.value)
        = (st.rows.map fun r => r.member.value)
    ∧ (promiseResolved t st o cs).fetchedChildren = some cs := by
  have hidx' : getRowIdx { st with fetchedChildren := some cs } o = getRowIdx st o := rfl
  rcases hidx : getRowIdx st o with _ | i
  · simp [promiseResolved, updateObject, doUpdateObject, hidx', hidx, hroot]
  · rcases hget : st.rows[i]? with _ | row
    · simp [promiseResolved, updateObject, doUpdateObject, hidx', hidx, hget, hroot]
    · have hop : row.opened = false := by
        have hgr : getRow st o = some row := by
          simp [getRow, hidx, hget]
        rw [hgr] at hcollapsed
        simpa using hcollapsed
      rcases hprov : t.provider with _ | p
      · simp [promiseResolved, updateObject, doUpdateObject, hidx', hidx, hget, hroot, hprov]
      · rcases hhc : p.hasChildren o with e | hc
        · simp [promiseResolved, updateObject, doUpdateObject, hidx', hidx, hget, hroot,
            hprov, hhc]
        · constructor
          · simp only [promiseResolved, updateObject, doUpdateObject, hidx', hidx, hget,
              hprov, hhc, hop, if_neg hroot]
            simp only [Bool.false_eq_true, if_false]
            rw [List.set_set]
            exact map_set_congr (fun (r : Row) => r.member.value) st.rows i
              (mkRow { row.member with hasChildren := hc }) row hget rfl
          · simp [promiseResolved, updateObject, doUpdateObject, hidx', hidx, hget, hroot,
              hprov, hhc, hop]

/-- A provider whose every fetch is a promise; vObj 2 counts as having
children. -/
def staleProvider : Provider :=
  { getChildren := fun _ => .ok (.promise 1),
    hasChildren := fun v => .ok (decide (v = .vObj 2)),
    getLabel := fun _ => .ok "stale" }

def staleTree : Tree :=
  { provider := some staleProvider, memberProvider := none, heap := fun _ => [] }

/-- A widget where the fetch for vObj 1 is outstanding but the row for
vObj 1 has been removed; only an unrelated collapsed row for vObj 2 remains. -/
def removedRowState : TreeState :=
  { baseState with
    rows := [mkRow sampleMemberA]
    pendingCallbacks := [(1, .vObj 1)] }

/-- C1 counterexample: when the dead fetch for vObj 1 resolves to the child
vNum 7, the resolution mounts nothing, but the resolved children are retained
in fetchedChildren instead of being discarded — and the very next expand, of
the unrelated row for vObj 2, consumes them and mounts a row for the stale
child vNum 7 under that row. -/
theorem c1_stale_children_not_discarded :
    (promiseResolved staleTree removedRowState (.vObj 1) [.vNum 7]).rows
        = removedRowState.rows
    ∧ (promiseResolved staleTree removedRowState (.vObj 1) [.vNum 7]).fetchedChildren
        = some [.vNum 7]
    ∧ ((toggleRow staleTree
          (promiseResolved staleTree removedRowState (.vObj 1) [.vNum 7]) 0 false).1.rows.map
        fun r => r.member.value) = [.vObj 2, .vNum 7] := by
  refine ⟨by decide, by decide, by decide⟩

/-- A mounted pending row for vObj 2 that the user has since collapsed: the
opened class is gone, the spinner class remains. -/
def collapsedPendingRow : Row :=
  { member := sampleMemberA, opened := false, spinning := true }

def collapsedPendingState : TreeState :=
  { baseState with
    rows := [collapsedPendingRow]
    pendingCallbacks := [(1, .vObj 2)] }

/-- C1 witness: resolving the fetch for the collapsed-but-mounted row leaves
the mounted member values unchanged and the resolved children cached. -/
theorem c1_resolution_after_collapse_witness :
    ((promiseResolved staleTree collapsedPendingState (.vObj 2) [.vNum 7]).rows.map
        fun r => r.member.value)
      = (collapsedPendingState.rows.map fun r => r.member.value)
    ∧ (promiseResolved staleTree collapsedPendingState (.vObj 2) [.vNum 7]).fetchedChildren
      = some [.vNum 7] :=
  c1_resolution_after_collapse_amended staleTree collapsedPendingState (.vObj 2) [.vNum 7] 1
    (by decide) (by decide) (by decide)

end DomTree
